import Mathlib

/-!
# Verification of the loop-type multi-agent test system

A shallow embedding, in Lean 4, of the loop orchestrator
(`run_loop_system.py`, `loop_system.py`), the integration layer
(`system_integration.py`) and the test-execution application
(`test_execution_app/app.py`, `test_design_app/app.py`), together with
theorems settling the frozen claims about the system.

External effects (HTTP calls, the LLM backend, the random generator,
wall-clock time, the file system) are modelled as explicit parameters:
an oracle function per iteration for collaborator answers, a boolean
coin for the simulated pass/fail draw, and `Nat` ticks for timestamps.
-/

set_option maxRecDepth 4096

/-! ## Data model of the loop system (`loop_system.py`) -/

/-- Terminal status of one test execution result
(`execution_results[i]["status"]` in the source; the strings
`"passed"`, `"failed"`, `"error"`, plus anything else, e.g. the
`"unknown"` default used by `system_integration.py`). -/
inductive ExecStatus
  | passed
  | failed
  | error
  | unknown
deriving DecidableEq, Repr

/-- One entry of `execution_results` as consumed by
`ImprovementAnalyzer._extract_failed_tests`. -/
structure ExecutionResult where
  test_case_id : String
  test_name : String
  status : ExecStatus
  failure_reason : Option String
deriving DecidableEq, Repr

/-- One entry of the `failed_tests` list built by
`ImprovementAnalyzer._extract_failed_tests`. -/
structure FailedTest where
  test_case_id : String
  test_name : String
  failure_reason : String
deriving DecidableEq, Repr

/-- One improvement suggestion (`improvement_suggestions[i]`). -/
structure ImprovementSuggestion where
  category : String
  priority : String
  description : String
deriving DecidableEq, Repr

/-- The test-execution summary dictionary returned by the execution
stage (`_run_test_execution` / `run_integrated_test_execution`):
`execution_results` plus the stage's own counters.  The float-free
fields only; `success`/`fallback_used` are the flags set by
`system_integration.py`. -/
structure TestExecutionSummary where
  execution_results : List ExecutionResult
  total_tests : Nat
  passed_tests : Nat
  failed_tests_count : Nat
  success : Bool
  fallback_used : Bool
deriving DecidableEq, Repr

/-- The improvement-analysis dictionary returned by
`ImprovementAnalyzer.analyze_improvements` (the two fields the loop
control and reporting read; `evidence` and `next_loop_plan` are not
consumed by any claim). -/
structure ImprovementAnalysis where
  failed_tests : List FailedTest
  improvement_suggestions : List ImprovementSuggestion
deriving DecidableEq, Repr

/-- `ImprovementAnalyzer._extract_failed_tests`: the execution results
whose status is `"failed"` or `"error"`, re-packaged. -/
def extractFailedTests (execution_results : List ExecutionResult) : List FailedTest :=
  (execution_results.filter fun e => e.status == .failed || e.status == .error).map
    fun e =>
      { test_case_id := e.test_case_id
        test_name := e.test_name
        failure_reason := e.failure_reason.getD "不明" }

/-- `ImprovementAnalyzer._create_fallback_improvement`: the empty but
well-formed analysis returned when the analyzer's own body raises. -/
def createFallbackImprovement : ImprovementAnalysis :=
  { failed_tests := [], improvement_suggestions := [] }

/-- `ImprovementAnalyzer.analyze_improvements`.  `internalError` models
an exception inside the `try` body (caught and converted into the
fallback analysis); `suggestions` is the oracle for the outcome of
`_generate_improvements` (LLM call or its fallbacks). -/
def analyzeImprovements (internalError : Bool)
    (suggestions : List ImprovementSuggestion)
    (test_results : TestExecutionSummary) : ImprovementAnalysis :=
  if internalError then
    createFallbackImprovement
  else
    { failed_tests := extractFailedTests test_results.execution_results
      improvement_suggestions := suggestions }

/-! ## The main loop (`IntegratedLoopSystem._execute_main_loop`) -/

/-- Everything one loop body records into `loop_results` that the
continuation policy and the reports consume. -/
structure IterationData where
  test_execution : TestExecutionSummary
  improvement_analysis : ImprovementAnalysis
deriving DecidableEq, Repr

/-- The `break` condition of `_execute_main_loop`
(`len(failed_tests) == 0 and improvements_count <= 1`), where both
counts are read from the improvement analysis. -/
def goalReached (d : IterationData) : Bool :=
  d.improvement_analysis.failed_tests.length == 0 &&
    decide (d.improvement_analysis.improvement_suggestions.length ≤ 1)

/-- `LoopController._should_continue_loop` from `loop_system.py`:
stop when the goal is reached, stop when the maximum is reached,
continue otherwise. -/
def shouldContinueLoop (maxLoops currentLoop : Nat)
    (improvement_result : ImprovementAnalysis) : Bool :=
  if improvement_result.failed_tests.length == 0 &&
      decide (improvement_result.improvement_suggestions.length ≤ 1) then
    false
  else if decide (currentLoop ≥ maxLoops) then
    false
  else
    true

/-- Observable outcome of the `while` loop in `_execute_main_loop`:
the recorded `loop_results`, plus how many times the loop body was
entered (`current_loop` on exit). -/
structure MainLoopOutcome where
  loop_results : List IterationData
  iterations_started : Nat
deriving DecidableEq, Repr

/-- The `while current_loop < max_loops` loop of
`_execute_main_loop`, starting from `current_loop = current` with
`fuel = max_loops - current` remaining slots.  The environment `env`
yields, for each (1-based) iteration number, either `some` iteration
data (the body ran to completion) or `none` (the body raised; the
`except` clause breaks the loop). -/
def executeFrom (env : Nat → Option IterationData) :
    Nat → Nat → MainLoopOutcome
  | _, 0 => { loop_results := [], iterations_started := 0 }
  | current, fuel + 1 =>
    let cl := current + 1
    match env cl with
    | none => { loop_results := [], iterations_started := 1 }
    | some d =>
      if goalReached d then
        { loop_results := [d], iterations_started := 1 }
      else
        let rest := executeFrom env cl fuel
        { loop_results := d :: rest.loop_results
          iterations_started := 1 + rest.iterations_started }

/-- `_execute_main_loop`'s loop with `current_loop` initialised to 0. -/
def executeMainLoop (maxLoops : Nat) (env : Nat → Option IterationData) :
    MainLoopOutcome :=
  executeFrom env 0 maxLoops

/-- `IntegratedLoopSystem._generate_recommendations`: up to three
category/description lines from the final iteration's suggestions,
else the generic stable-system message. -/
def generateRecommendations (loop_results : List IterationData) : List String :=
  match loop_results.getLast? with
  | none => ["データが不足しているため、推奨事項を生成できませんでした。"]
  | some latest =>
    let recommendations :=
      (latest.improvement_analysis.improvement_suggestions.take 3).map
        fun imp => imp.category ++ ": " ++ imp.description
    if recommendations.isEmpty then
      ["システムは安定しており、継続的な監視を推奨します。"]
    else
      recommendations

/-- The final report of `IntegratedLoopSystem._generate_final_report`
(the float `success_rate` field is omitted from the embedding). -/
structure FinalReport where
  total_loops_executed : Nat
  total_tests_run : Nat
  total_failures_identified : Nat
  total_improvements_suggested : Nat
  final_loop_failures : Nat
  recommendations : List String
deriving DecidableEq, Repr

/-- `IntegratedLoopSystem._generate_final_report`. -/
def generateFinalReport (loop_results : List IterationData) : FinalReport :=
  { total_loops_executed := loop_results.length
    total_tests_run :=
      (loop_results.map fun r => r.test_execution.total_tests).sum
    total_failures_identified :=
      (loop_results.map fun r => r.improvement_analysis.failed_tests.length).sum
    total_improvements_suggested :=
      (loop_results.map fun r =>
        r.improvement_analysis.improvement_suggestions.length).sum
    final_loop_failures :=
      match loop_results.getLast? with
      | none => 0
      | some l => l.improvement_analysis.failed_tests.length
    recommendations := generateRecommendations loop_results }

/-- The value `_execute_main_loop` returns to its caller: the recorded
results, their count, and the final report (which is generated and
saved on every exit path of the loop, normal or aborted). -/
structure MainLoopRun where
  total_loops_executed : Nat
  loop_results : List IterationData
  final_report : FinalReport
deriving DecidableEq, Repr

/-- `_execute_main_loop` end to end: run the loop, then build the
final report from whatever was recorded. -/
def executeMainLoopRun (maxLoops : Nat)
    (env : Nat → Option IterationData) : MainLoopRun :=
  let out := executeMainLoop maxLoops env
  { total_loops_executed := out.loop_results.length
    loop_results := out.loop_results
    final_report := generateFinalReport out.loop_results }

/-! ## Trend analysis (`LoopController._analyze_improvement_trend`) -/

/-- The `improvement_trend` block of `LoopController`'s final report. -/
structure ImprovementTrend where
  failure_trend : List Nat
  improvement_detected : Bool
  stability_achieved : Bool
deriving DecidableEq, Repr

/-- `LoopController._analyze_improvement_trend`: per-iteration failure
counts (lengths of the analyses' `failed_tests` lists), improvement
iff strictly fewer failures in the last iteration than in the first
(`False` for fewer than two iterations), stability iff the last count
is zero (`False` for an empty run). -/
def analyzeImprovementTrend (loop_results : List IterationData) : ImprovementTrend :=
  let failure_counts :=
    loop_results.map fun r => r.improvement_analysis.failed_tests.length
  { failure_trend := failure_counts
    improvement_detected :=
      if failure_counts.length > 1 then
        decide (failure_counts.getLast?.getD 0 < failure_counts.head?.getD 0)
      else
        false
    stability_achieved :=
      if failure_counts.isEmpty then
        false
      else
        failure_counts.getLast?.getD 0 == 0 }

/-! ## Lemmas about the main loop -/

theorem executeFrom_no_goal (data : Nat → IterationData) :
    ∀ (f c : Nat), (∀ i, c < i → i ≤ c + f → goalReached (data i) = false) →
    executeFrom (fun i => some (data i)) c f =
      { loop_results := (List.range' (c + 1) f).map data, iterations_started := f } := by
  intro f
  induction f with
  | zero => intro c _; rfl
  | succ f ih =>
    intro c h
    have h1 : goalReached (data (c + 1)) = false := h (c + 1) (by omega) (by omega)
    have ih' := ih (c + 1) (fun i hi hi2 => h i (by omega) (by omega))
    simp only [executeFrom, h1, ih', List.range'_succ, List.map_cons,
      Bool.false_eq_true, if_false]
    congr 1
    omega

theorem executeFrom_goal (data : Nat → IterationData) :
    ∀ (f c k : Nat), c < k → k ≤ c + f →
    (∀ i, c < i → i < k → goalReached (data i) = false) →
    goalReached (data k) = true →
    executeFrom (fun i => some (data i)) c f =
      { loop_results := (List.range' (c + 1) (k - c)).map data
        iterations_started := k - c } := by
  intro f
  induction f with
  | zero => intro c k h1 h2 _ _; exact absurd h2 (by omega)
  | succ f ih =>
    intro c k hck hkf hmid hk
    by_cases hc1 : c + 1 = k
    · subst hc1
      have hkc : c + 1 - c = 1 := by omega
      simp only [executeFrom, hk, if_true, hkc, List.range'_one, List.map_cons,
        List.map_nil]
    · have h1 : goalReached (data (c + 1)) = false :=
        hmid (c + 1) (by omega) (by omega)
      have ih' := ih (c + 1) k (by omega) (by omega)
        (fun i hi hi2 => hmid i (by omega) hi2) hk
      have hr : k - c = (k - (c + 1)) + 1 := by omega
      simp only [executeFrom, h1, ih', hr, List.range'_succ, List.map_cons,
        Bool.false_eq_true, if_false]
      congr 1
      omega

theorem executeFrom_error (data : Nat → IterationData) (k : Nat) :
    ∀ (f c : Nat), c < k → k ≤ c + f →
    (∀ i, c < i → i < k → goalReached (data i) = false) →
    executeFrom (fun i => if i = k then none else some (data i)) c f =
      { loop_results := (List.range' (c + 1) (k - (c + 1))).map data
        iterations_started := k - c } := by
  intro f
  induction f with
  | zero => intro c h1 h2; omega
  | succ f ih =>
    intro c hck hkf hmid
    by_cases hc1 : c + 1 = k
    · subst hc1
      have hz : c + 1 - (c + 1) = 0 := by omega
      have hone : c + 1 - c = 1 := by omega
      simp only [executeFrom, if_pos rfl, ite_true, hz, hone, List.range'_zero,
        List.map_nil]
    · have h1 : goalReached (data (c + 1)) = false :=
        hmid (c + 1) (by omega) (by omega)
      have ih' := ih (c + 1) (by omega) (by omega)
        (fun i hi hi2 => hmid i (by omega) hi2)
      have hne : c + 1 ≠ k := hc1
      have hr : k - (c + 1) = (k - (c + 1 + 1)) + 1 := by omega
      simp only [executeFrom, if_neg hne, h1, ih', hr, List.range'_succ,
        List.map_cons, Bool.false_eq_true, if_false]
      congr 1
      omega

theorem executeFrom_started_le (env : Nat → Option IterationData) :
    ∀ (f c : Nat), (executeFrom env c f).iterations_started ≤ f := by
  intro f
  induction f with
  | zero => intro c; simp [executeFrom]
  | succ f ih =>
    intro c
    simp only [executeFrom]
    match env (c + 1) with
    | none => simp
    | some d =>
      by_cases hg : goalReached d = true
      · simp [hg]
      · have := ih (c + 1)
        simp only [Bool.not_eq_true] at hg
        simp [hg]
        omega

theorem executeFrom_started_pos (env : Nat → Option IterationData)
    (f c : Nat) (hf : 1 ≤ f) :
    1 ≤ (executeFrom env c f).iterations_started := by
  match f, hf with
  | f + 1, _ =>
    simp only [executeFrom]
    match env (c + 1) with
    | none => simp
    | some d =>
      by_cases hg : goalReached d = true
      · simp [hg]
      · simp only [Bool.not_eq_true] at hg
        simp [hg]

/-! ## Concrete fixtures for witnesses -/

/-- A concrete execution summary: five tests, one failure. -/
def sampleExecution : TestExecutionSummary :=
  { execution_results :=
      [{ test_case_id := "TC-001", test_name := "テストケース1",
         status := .failed, failure_reason := some "予期しない結果" }]
    total_tests := 5
    passed_tests := 4
    failed_tests_count := 1
    success := true
    fallback_used := false }

/-- A concrete improvement suggestion. -/
def sampleSuggestion : ImprovementSuggestion :=
  { category := "機能改善", priority := "高", description := "基本的な改善" }

/-- Iteration record with one failed test and two suggestions: the
continuation policy keeps looping on it. -/
def iterFailing : IterationData :=
  { test_execution := sampleExecution
    improvement_analysis :=
      { failed_tests :=
          [{ test_case_id := "TC-001", test_name := "テストケース1",
             failure_reason := "予期しない結果" }]
        improvement_suggestions := [sampleSuggestion, sampleSuggestion] } }

/-- Iteration record with no failures and no suggestions: the
continuation policy stops on it. -/
def iterClean : IterationData :=
  { test_execution :=
      { execution_results := []
        total_tests := 5
        passed_tests := 5
        failed_tests_count := 0
        success := true
        fallback_used := false }
    improvement_analysis := { failed_tests := [], improvement_suggestions := [] } }

/-! ## C1: exact stop point of the loop -/

/-- **C1.**  With no in-iteration exception, the loop stops exactly when
the just-completed iteration has an empty `failed_tests` list and at
most one improvement suggestion (or the configured maximum is reached):
if that terminal condition first holds at iteration `k ≤ N`, exactly
`k` iterations run; if it never holds within `N` iterations, exactly
`N` run.  `LoopController._should_continue_loop` implements the same
policy: continue iff the terminal condition fails and the maximum is
not yet reached. -/
theorem mainLoop_stop_characterization (N : Nat) (data : Nat → IterationData) :
    (∀ k, 1 ≤ k → k ≤ N →
      (∀ i, 1 ≤ i → i < k → goalReached (data i) = false) →
      goalReached (data k) = true →
      (executeMainLoop N fun i => some (data i)).iterations_started = k ∧
        (executeMainLoop N fun i => some (data i)).loop_results.length = k) ∧
    ((∀ i, 1 ≤ i → i ≤ N → goalReached (data i) = false) →
      (executeMainLoop N fun i => some (data i)).iterations_started = N ∧
        (executeMainLoop N fun i => some (data i)).loop_results.length = N) ∧
    (∀ maxLoops currentLoop imp,
      shouldContinueLoop maxLoops currentLoop imp =
        (!(imp.failed_tests.length == 0 &&
            decide (imp.improvement_suggestions.length ≤ 1)) &&
          decide (currentLoop < maxLoops))) := by
  refine ⟨fun k hk1 hkN hmid hgoal => ?_, fun hnone => ?_, fun m c imp => ?_⟩
  · have he := executeFrom_goal data N 0 k (by omega) (by omega)
      (fun i hi hi2 => hmid i (by omega) hi2) hgoal
    rw [executeMainLoop, he]
    simp only [List.length_map, List.length_range']
    omega
  · have he := executeFrom_no_goal data N 0
      (fun i hi hi2 => hnone i (by omega) (by omega))
    rw [executeMainLoop, he]
    exact ⟨rfl, by simp⟩
  · by_cases hg : (imp.failed_tests.length == 0 &&
        decide (imp.improvement_suggestions.length ≤ 1)) = true
    · simp [shouldContinueLoop, hg]
    · rcases Nat.lt_or_ge c m with hcm | hcm
      · simp [shouldContinueLoop, hg, hcm, Nat.not_le.mpr hcm]
      · simp [shouldContinueLoop, hg, hcm, Nat.not_lt.mpr hcm]

/-- Witness for C1: with the failing iteration first and the clean one
from iteration 2 on, a run capped at 5 iterations stops after exactly
2. -/
theorem mainLoop_stop_characterization_witness :
    (executeMainLoop 5 fun i =>
        some (if i ≤ 1 then iterFailing else iterClean)).iterations_started = 2 ∧
      (executeMainLoop 5 fun i =>
        some (if i ≤ 1 then iterFailing else iterClean)).loop_results.length = 2 :=
  (mainLoop_stop_characterization 5
      fun i => if i ≤ 1 then iterFailing else iterClean).1 2
    (by decide) (by decide)
    (by
      intro i h1 h2
      have hi : i = 1 := by omega
      subst hi
      decide)
    (by decide)

/-! ## C2: between 1 and N iterations -/

/-- **C2.**  For any configured maximum `N ≥ 1` and any behaviour of
the iteration bodies, the `while` loop enters its body at least once
and at most `N` times. -/
theorem mainLoop_iteration_bounds (N : Nat) (env : Nat → Option IterationData)
    (hN : 1 ≤ N) :
    1 ≤ (executeMainLoop N env).iterations_started ∧
      (executeMainLoop N env).iterations_started ≤ N :=
  ⟨executeFrom_started_pos env N 0 hN, executeFrom_started_le env N 0⟩

/-- Witness for C2 at `N = 3` with every iteration clean. -/
theorem mainLoop_iteration_bounds_witness :
    1 ≤ 3 ∧
      (1 ≤ (executeMainLoop 3 fun _ => some iterClean).iterations_started ∧
        (executeMainLoop 3 fun _ => some iterClean).iterations_started ≤ 3) :=
  ⟨by decide, mainLoop_iteration_bounds 3 (fun _ => some iterClean) (by decide)⟩

/-! ## C4: an exception aborts the loop but the report survives -/

/-- **C4.**  If iteration `k` raises (and no earlier iteration met the
terminal condition), the loop body is entered exactly `k` times — so no
iteration after `k` starts and `k` itself is not retried — the recorded
results are exactly iterations `1 .. k-1`, and the final report is
still generated, aggregating exactly those completed iterations. -/
theorem mainLoop_abort_on_exception (N k : Nat) (data : Nat → IterationData)
    (h1 : 1 ≤ k) (h2 : k ≤ N)
    (hmid : ∀ i, 1 ≤ i → i < k → goalReached (data i) = false) :
    (executeMainLoop N fun i => if i = k then none else some (data i)).iterations_started
        = k ∧
      (executeMainLoopRun N fun i => if i = k then none else some (data i)).loop_results
        = (List.range' 1 (k - 1)).map data ∧
      (executeMainLoopRun N fun i => if i = k then none else some (data i)).total_loops_executed
        = k - 1 ∧
      (executeMainLoopRun N fun i => if i = k then none else some (data i)).final_report
        = generateFinalReport ((List.range' 1 (k - 1)).map data) := by
  have he := executeFrom_error data k N 0 (by omega) (by omega)
    (fun i hi hi2 => hmid i (by omega) hi2)
  have hk1 : k - (0 + 1) = k - 1 := by omega
  rw [hk1] at he
  refine ⟨?_, ?_, ?_, ?_⟩
  · rw [executeMainLoop, he]
    show k - 0 = k
    omega
  · rw [executeMainLoopRun, executeMainLoop, he]
  · rw [executeMainLoopRun, executeMainLoop, he]
    simp [List.length_map, List.length_range']
  · rw [executeMainLoopRun, executeMainLoop, he]

/-- Witness for C4: exception at iteration 2 of a 5-iteration run, a
failing iteration 1; the loop starts 2 iterations, records 1, and the
report aggregates that single iteration. -/
theorem mainLoop_abort_on_exception_witness :
    (executeMainLoop 5 fun i =>
        if i = 2 then none else some iterFailing).iterations_started = 2 ∧
      (executeMainLoopRun 5 fun i =>
        if i = 2 then none else some iterFailing).loop_results
        = (List.range' 1 (2 - 1)).map (fun _ => iterFailing) ∧
      (executeMainLoopRun 5 fun i =>
        if i = 2 then none else some iterFailing).total_loops_executed = 2 - 1 ∧
      (executeMainLoopRun 5 fun i =>
        if i = 2 then none else some iterFailing).final_report
        = generateFinalReport ((List.range' 1 (2 - 1)).map fun _ => iterFailing) :=
  mainLoop_abort_on_exception 5 2 (fun _ => iterFailing) (by decide) (by decide)
    (by
      intro i hi1 hi2
      have hi : i = 1 := by omega
      subst hi
      decide)

/-! ## C5: improvement-detected / stability-achieved flags -/

/-- **C5.**  For a completed run with at least one iteration, the
trend's `improvement_detected` flag is true iff the last iteration's
failure count is strictly below the first's (for a single iteration
both sides are false), and `stability_achieved` is true iff the last
failure count is zero. -/
theorem trend_flags (loop_results : List IterationData)
    (h : loop_results ≠ []) :
    ((analyzeImprovementTrend loop_results).improvement_detected = true ↔
      (loop_results.map fun r =>
          r.improvement_analysis.failed_tests.length).getLast?.getD 0 <
        (loop_results.map fun r =>
          r.improvement_analysis.failed_tests.length).head?.getD 0) ∧
    ((analyzeImprovementTrend loop_results).stability_achieved = true ↔
      (loop_results.map fun r =>
          r.improvement_analysis.failed_tests.length).getLast?.getD 0 = 0) := by
  have hne : (loop_results.map fun r =>
      r.improvement_analysis.failed_tests.length) ≠ [] := by
    simpa using h
  constructor
  · by_cases hl : (loop_results.map fun r =>
        r.improvement_analysis.failed_tests.length).length > 1
    · have hl' : 1 < loop_results.length := by simpa using hl
      simp [analyzeImprovementTrend, hl']
    · have hpos : 0 < (loop_results.map fun r =>
          r.improvement_analysis.failed_tests.length).length :=
        List.length_pos.mpr hne
      have hone : (loop_results.map fun r =>
          r.improvement_analysis.failed_tests.length).length = 1 := by omega
      obtain ⟨a, ha⟩ := List.length_eq_one.mp hone
      simp [analyzeImprovementTrend, hl, ha]
  · simp [analyzeImprovementTrend, hne]

/-- Witness for C5: three iterations, one failure each — the failure
trend is `[1, 1, 1]`, `improvement_detected` comes out false and
`stability_achieved` comes out false, as the equivalences demand. -/
theorem trend_flags_witness :
    ([iterFailing, iterFailing, iterFailing] ≠ ([] : List IterationData)) ∧
      (((analyzeImprovementTrend
          [iterFailing, iterFailing, iterFailing]).improvement_detected = true ↔
        ([iterFailing, iterFailing, iterFailing].map fun r =>
            r.improvement_analysis.failed_tests.length).getLast?.getD 0 <
          ([iterFailing, iterFailing, iterFailing].map fun r =>
            r.improvement_analysis.failed_tests.length).head?.getD 0) ∧
      ((analyzeImprovementTrend
          [iterFailing, iterFailing, iterFailing]).stability_achieved = true ↔
        ([iterFailing, iterFailing, iterFailing].map fun r =>
            r.improvement_analysis.failed_tests.length).getLast?.getD 0 = 0)) :=
  ⟨by decide, trend_flags [iterFailing, iterFailing, iterFailing] (by decide)⟩

/-! ## C10: the policy and the trend count the analysis's failures -/

/-- **C10.**  The failure count feeding the continuation policy and the
failure trend is the length of the improvement analysis's
`failed_tests` — exactly the execution results with status `failed` or
`error` — not the execution stage's own `failed_tests` counter; when
the analyzer falls back to its empty analysis, that iteration counts
zero failures for the stop decision (which therefore stops the loop)
and for the trend, regardless of the execution stage's counter. -/
theorem failure_count_from_analysis (er : List ExecutionResult)
    (ex : TestExecutionSummary) (s : List ImprovementSuggestion)
    (loop_results : List IterationData) :
    (extractFailedTests er).length =
        er.countP (fun e => e.status == .failed || e.status == .error) ∧
      (analyzeImprovements false s ex).failed_tests =
        extractFailedTests ex.execution_results ∧
      (analyzeImprovementTrend loop_results).failure_trend =
        loop_results.map (fun r => r.improvement_analysis.failed_tests.length) ∧
      (analyzeImprovements true s ex).failed_tests.length = 0 ∧
      goalReached { test_execution := ex
                    improvement_analysis := analyzeImprovements true s ex } = true := by
  refine ⟨?_, rfl, rfl, rfl, rfl⟩
  simp [extractFailedTests, List.countP_eq_length_filter]

/-! ## Test-execution state machine (`test_execution_app/app.py`) -/

/-- Lifecycle states of `TestExecution.status` (the comment in the
source lists `pending, running, completed, failed,
human_intervention`). -/
inductive ExecState
  | pending
  | running
  | completed
  | failed
  | humanIntervention
deriving DecidableEq, Repr

/-- A step result as built by the `/complete_step` route (`result`,
`status`, `timestamp`, `notes`).  Time is modelled as a `Nat` tick. -/
structure StepResult where
  result : String
  status : String
  timestamp : Nat
  notes : String
deriving DecidableEq, Repr

/-- A human-intervention record (`type`, `description`, `result`,
`timestamp`). -/
structure HumanIntervention where
  intervention_type : String
  description : String
  result : String
  timestamp : Nat
deriving DecidableEq, Repr

/-- The `TestExecution` object of `test_execution_app/app.py`. -/
structure TestExecution where
  test_case_id : String
  test_name : String
  test_steps : List String
  expected_results : List String
  status : ExecState
  current_step : Nat
  results : List StepResult
  human_interventions : List HumanIntervention
  start_time : Option Nat
  end_time : Option Nat
  execution_style : String
deriving DecidableEq, Repr

/-- `TestExecution.__init__`. -/
def TestExecution.init (test_case_id test_name : String)
    (test_steps expected_results : List String) : TestExecution :=
  { test_case_id := test_case_id
    test_name := test_name
    test_steps := test_steps
    expected_results := expected_results
    status := .pending
    current_step := 0
    results := []
    human_interventions := []
    start_time := none
    end_time := none
    execution_style := "manual" }

/-- `TestExecution.start_execution`: unguarded — sets `running` and
resets the cursor whatever the current state is. -/
def TestExecution.startExecution (now : Nat) (e : TestExecution) : TestExecution :=
  { e with start_time := some now, status := .running, current_step := 0 }

/-- `TestExecution.complete_step`: unguarded — appends the step result,
advances the cursor, and marks `completed` (with an end time) once the
cursor reaches the declared step count. -/
def TestExecution.completeStep (step_result : StepResult) (now : Nat)
    (e : TestExecution) : TestExecution :=
  let e' := { e with results := e.results ++ [step_result]
                     current_step := e.current_step + 1 }
  if e'.current_step ≥ e'.test_steps.length then
    { e' with status := .completed, end_time := some now }
  else
    e'

/-- `TestExecution.add_human_intervention`: appends an entry; touches
no other field. -/
def TestExecution.addHumanIntervention
    (intervention_type description result : String) (now : Nat)
    (e : TestExecution) : TestExecution :=
  { e with human_interventions := e.human_interventions ++
      [{ intervention_type := intervention_type
         description := description
         result := result
         timestamp := now }] }

/-- The two terminal states of the lifecycle. -/
def terminalState (s : ExecState) : Bool :=
  s == .completed || s == .failed

/-- One externally driven operation on a single test execution (the
three mutating routes). -/
inductive ExecOp
  | start (now : Nat)
  | step (step_result : StepResult) (now : Nat)
  | intervene (intervention_type description result : String) (now : Nat)
deriving DecidableEq, Repr

/-- Apply one operation. -/
def applyOp (e : TestExecution) : ExecOp → TestExecution
  | .start now => e.startExecution now
  | .step r now => e.completeStep r now
  | .intervene t d r now => e.addHumanIntervention t d r now

/-- Apply a sequence of operations, oldest first. -/
def applyOps (e : TestExecution) (ops : List ExecOp) : TestExecution :=
  ops.foldl applyOp e

/-- The protocol under which the cursor bound holds: `complete_step`
is only issued while the cursor is strictly below the declared step
count (the code itself never checks this). -/
def stepProtocol (e : TestExecution) : List ExecOp → Bool
  | [] => true
  | op :: ops =>
    (match op with
     | .step _ _ => decide (e.current_step < e.test_steps.length)
     | _ => true) && stepProtocol (applyOp e op) ops

theorem applyOps_cons (e : TestExecution) (op : ExecOp) (ops : List ExecOp) :
    applyOps e (op :: ops) = applyOps (applyOp e op) ops := rfl

theorem applyOps_cursor_le (ops : List ExecOp) :
    ∀ e : TestExecution, e.current_step ≤ e.test_steps.length →
    stepProtocol e ops = true →
    (applyOps e ops).current_step ≤ (applyOps e ops).test_steps.length := by
  induction ops with
  | nil => intro e h _; exact h
  | cons op ops ih =>
    intro e h hp
    simp only [stepProtocol, Bool.and_eq_true] at hp
    obtain ⟨hop, hrest⟩ := hp
    rw [applyOps_cons]
    refine ih (applyOp e op) ?_ hrest
    cases op with
    | start now =>
      simp [applyOp, TestExecution.startExecution]
    | step r now =>
      have hlt : e.current_step < e.test_steps.length := by simpa using hop
      simp only [applyOp, TestExecution.completeStep]
      split
      · simpa using hlt
      · simpa using hlt
    | intervene t d r now =>
      simpa [applyOp, TestExecution.addHumanIntervention] using h

/-! ## C3: state-machine invariants -/

/-- **C3 (amended).**  The initial state is `pending`; each
`complete_step` appends exactly one step result and advances the
cursor by exactly one; provided `complete_step` is only invoked while
the cursor is strictly below the declared step count, the cursor
never exceeds that count; and `add_human_intervention` never changes
the status (the code does not otherwise guard terminal states:
an unguarded `complete_step` or `start_execution` still mutates a
completed execution, see the counterexample). -/
theorem execution_state_machine (test_case_id test_name : String)
    (test_steps expected_results : List String) (e : TestExecution)
    (step_result : StepResult) (now : Nat) (t d rs : String)
    (ops : List ExecOp)
    (hcur : e.current_step ≤ e.test_steps.length)
    (hproto : stepProtocol e ops = true) :
    (TestExecution.init test_case_id test_name test_steps expected_results).status
        = .pending ∧
      (e.completeStep step_result now).results = e.results ++ [step_result] ∧
      (e.completeStep step_result now).current_step = e.current_step + 1 ∧
      (applyOps e ops).current_step ≤ (applyOps e ops).test_steps.length ∧
      (e.addHumanIntervention t d rs now).status = e.status := by
  refine ⟨rfl, ?_, ?_, applyOps_cursor_le ops e hcur hproto, rfl⟩
  · simp only [TestExecution.completeStep]
    split <;> rfl
  · simp only [TestExecution.completeStep]
    split <;> rfl

/-- A concrete one-step execution for the state-machine claims. -/
def sampleExec : TestExecution :=
  TestExecution.init "TC-001" "基本機能確認テスト" ["サイトにアクセス"] ["正常動作"]

/-- A concrete step result as the `/complete_step` route builds it. -/
def sampleStepResult : StepResult :=
  { result := "ステップ1実行結果", status := "passed", timestamp := 1, notes := "" }

/-- **C3 counterexample.**  On a one-step execution, after `start` and
one `complete_step` the state is terminal (`completed`); a second,
unguarded `complete_step` still changes the state and pushes the
cursor to 2, beyond the declared step count 1 — so the cursor bound
and the terminal-state immutability of the claim fail on the code as
written. -/
theorem execution_state_machine_counterexample :
    terminalState (applyOps sampleExec
        [.start 0, .step sampleStepResult 1]).status = true ∧
      (applyOps sampleExec
          [.start 0, .step sampleStepResult 1, .step sampleStepResult 2]).current_step
        > sampleExec.test_steps.length ∧
      applyOp (applyOps sampleExec [.start 0, .step sampleStepResult 1])
          (.step sampleStepResult 2)
        ≠ applyOps sampleExec [.start 0, .step sampleStepResult 1] := by
  decide

/-- Witness for the amended C3: the protocol-respecting two-operation
run on the one-step execution keeps the cursor within bounds. -/
theorem execution_state_machine_witness :
    (sampleExec.current_step ≤ sampleExec.test_steps.length ∧
      stepProtocol sampleExec [.start 0, .step sampleStepResult 1] = true) ∧
    ((TestExecution.init "TC-001" "基本機能確認テスト" ["サイトにアクセス"] ["正常動作"]).status
        = .pending ∧
      (sampleExec.completeStep sampleStepResult 1).results
        = sampleExec.results ++ [sampleStepResult] ∧
      (sampleExec.completeStep sampleStepResult 1).current_step
        = sampleExec.current_step + 1 ∧
      (applyOps sampleExec [.start 0, .step sampleStepResult 1]).current_step
        ≤ (applyOps sampleExec [.start 0, .step sampleStepResult 1]).test_steps.length ∧
      (sampleExec.addHumanIntervention "manual" "確認" "OK" 2).status
        = sampleExec.status) :=
  ⟨⟨by decide, by decide⟩,
    execution_state_machine "TC-001" "基本機能確認テスト" ["サイトにアクセス"] ["正常動作"]
      sampleExec sampleStepResult 1 "manual" "確認" "OK"
      [.start 0, .step sampleStepResult 1] (by decide) (by decide)⟩

/-! ## Execution registry and routes (`test_execution_app/app.py`) -/

/-- `TestExecutionManager`: the in-process registry of executions,
keyed by execution id (insertion-ordered, like a Python dict). -/
structure TestExecutionManager where
  executions : List (String × TestExecution)
deriving DecidableEq, Repr

/-- `self.executions.get(execution_id)`. -/
def TestExecutionManager.getExecution (m : TestExecutionManager)
    (execution_id : String) : Option TestExecution :=
  (m.executions.find? fun p => p.1 == execution_id).map (·.2)

/-- In-place update of the registered execution (the Python code
mutates the object obtained from the dict). -/
def TestExecutionManager.setExecution (m : TestExecutionManager)
    (execution_id : String) (e : TestExecution) : TestExecutionManager :=
  { executions := m.executions.map fun p =>
      if p.1 == execution_id then (p.1, e) else p }

/-- `TestExecutionManager.start_execution`: mutates the execution when
registered, silently does nothing otherwise. -/
def TestExecutionManager.startExecution (m : TestExecutionManager)
    (execution_id : String) (now : Nat) : TestExecutionManager :=
  match m.getExecution execution_id with
  | some e => m.setExecution execution_id (e.startExecution now)
  | none => m

/-- `TestExecutionManager.complete_step`: same guard. -/
def TestExecutionManager.completeStep (m : TestExecutionManager)
    (execution_id : String) (step_result : StepResult) (now : Nat) :
    TestExecutionManager :=
  match m.getExecution execution_id with
  | some e => m.setExecution execution_id (e.completeStep step_result now)
  | none => m

/-- `TestExecutionManager.add_human_intervention`: same guard. -/
def TestExecutionManager.addHumanIntervention (m : TestExecutionManager)
    (execution_id : String) (intervention_type description result : String)
    (now : Nat) : TestExecutionManager :=
  match m.getExecution execution_id with
  | some e =>
    m.setExecution execution_id
      (e.addHumanIntervention intervention_type description result now)
  | none => m

/-- A route's JSON reply: `success: true` with a message, or an error
payload (HTTP 404/4xx). -/
inductive ApiResponse
  | success (message : String)
  | notFound (message : String)
deriving DecidableEq, Repr

/-- `POST /start_execution/<id>`: delegates to the manager and always
replies success. -/
def startExecutionRoute (m : TestExecutionManager) (execution_id : String)
    (now : Nat) : TestExecutionManager × ApiResponse :=
  (m.startExecution execution_id now, .success "テスト実行を開始しました")

/-- `POST /complete_step/<id>`: same shape. -/
def completeStepRoute (m : TestExecutionManager) (execution_id : String)
    (step_result : StepResult) (now : Nat) :
    TestExecutionManager × ApiResponse :=
  (m.completeStep execution_id step_result now, .success "ステップを完了しました")

/-- `POST /add_intervention/<id>`: same shape. -/
def addInterventionRoute (m : TestExecutionManager) (execution_id : String)
    (intervention_type description result : String) (now : Nat) :
    TestExecutionManager × ApiResponse :=
  (m.addHumanIntervention execution_id intervention_type description result now,
    .success "介入を記録しました")

/-- `GET /get_execution/<id>`: the execution's record, or a 404
error. -/
def getExecutionRoute (m : TestExecutionManager) (execution_id : String) :
    Except String TestExecution :=
  match m.getExecution execution_id with
  | none => .error "実行が見つかりません"
  | some e => .ok e

/-- `TestExecutionManager.export_results` composed with
`GET /export_results/<id>`: `None` → 404 error for an unknown id,
else the CSV file path (the written file's contents are not modelled
here; the tabular shape is covered by the CSV section below). -/
def exportResultsRoute (m : TestExecutionManager) (execution_id : String)
    (now : Nat) : Except String String :=
  match m.getExecution execution_id with
  | none => .error "実行が見つかりません"
  | some _ =>
    .ok ("test_results/test_execution_" ++ execution_id ++ "_"
      ++ toString now ++ ".csv")

/-! ## C9: behaviour on an unknown execution id -/

/-- **C9.**  For an execution id absent from the registry, the three
mutating routes leave the registry untouched and still reply
`success: true`; only `get_execution` and `export_results` report a
not-found error. -/
theorem unknown_execution_id_behaviour (m : TestExecutionManager)
    (execution_id : String) (step_result : StepResult)
    (t d rs : String) (now : Nat)
    (h : m.getExecution execution_id = none) :
    startExecutionRoute m execution_id now
        = (m, .success "テスト実行を開始しました") ∧
      completeStepRoute m execution_id step_result now
        = (m, .success "ステップを完了しました") ∧
      addInterventionRoute m execution_id t d rs now
        = (m, .success "介入を記録しました") ∧
      getExecutionRoute m execution_id = .error "実行が見つかりません" ∧
      exportResultsRoute m execution_id now = .error "実行が見つかりません" := by
  refine ⟨?_, ?_, ?_, ?_, ?_⟩ <;>
    simp [startExecutionRoute, completeStepRoute, addInterventionRoute,
      getExecutionRoute, exportResultsRoute, TestExecutionManager.startExecution,
      TestExecutionManager.completeStep,
      TestExecutionManager.addHumanIntervention, h]

/-- Witness for C9 on the empty registry and a fresh id. -/
theorem unknown_execution_id_behaviour_witness :
    (TestExecutionManager.mk []).getExecution "exec_001" = none ∧
      (startExecutionRoute ⟨[]⟩ "exec_001" 0
          = (⟨[]⟩, .success "テスト実行を開始しました") ∧
        completeStepRoute ⟨[]⟩ "exec_001" sampleStepResult 0
          = (⟨[]⟩, .success "ステップを完了しました") ∧
        addInterventionRoute ⟨[]⟩ "exec_001" "manual" "確認" "OK" 0
          = (⟨[]⟩, .success "介入を記録しました") ∧
        getExecutionRoute ⟨[]⟩ "exec_001" = .error "実行が見つかりません" ∧
        exportResultsRoute ⟨[]⟩ "exec_001" 0 = .error "実行が見つかりません") :=
  ⟨rfl, unknown_execution_id_behaviour ⟨[]⟩ "exec_001" sampleStepResult
    "manual" "確認" "OK" 0 rfl⟩

/-! ## System integration (`system_integration.py`, `run_loop_system.py`) -/

/-- The three integration modes printed by
`_verify_system_integration` (`full` / `partial` / `basic`). -/
inductive IntegrationLevel
  | full
  | partialLevel
  | basic
deriving DecidableEq, Repr

/-- One probe's view of the two collaborator apps
(`WebAppChecker.check_all_services`, reduced to the `available`
booleans that all callers branch on). -/
structure ServiceStatus where
  test_design_app : Bool
  test_execution_app : Bool
deriving DecidableEq, Repr

/-- `IntegratedLoopSystem._verify_system_integration`: sequential
overwrites of the level variable — start at `full`, drop to `partial`
if either app is unavailable, then to `basic` if Ollama is
unavailable (the Ollama check overrides). -/
def verifySystemIntegration (status : ServiceStatus)
    (ollamaAvailable : Bool) : IntegrationLevel :=
  let l1 := if status.test_design_app then IntegrationLevel.full
            else IntegrationLevel.partialLevel
  let l2 := if status.test_execution_app then l1
            else IntegrationLevel.partialLevel
  if ollamaAvailable then l2 else IntegrationLevel.basic

/-- Availability over a run: `probe 0` is what the single pre-loop
check of `run_complete_loop` (its Step 3) sees; `probe i` for `i ≥ 1`
is what the fresh per-stage checks inside iteration `i` see.  Ollama
is checked once, during the prerequisites step. -/
structure AvailabilityEnv where
  probe : Nat → ServiceStatus
  ollama : Bool

/-- The integration level in effect during iteration `i` of a run:
`_verify_system_integration` executes exactly once, before the main
loop, on the pre-loop probe, and the source never recomputes it — so
the value associated with every iteration is the one derived from
`probe 0`, independent of `i`. -/
def integrationLevelInEffect (env : AvailabilityEnv) (_iteration : Nat) :
    IntegrationLevel :=
  verifySystemIntegration (env.probe 0) env.ollama

/-- A test case as carried in `test_design_result["test_cases"]`. -/
structure TestCaseRec where
  test_case_id : String
  test_name : String
  test_steps : List String
  expected_results : List String
deriving DecidableEq, Repr

/-- The design stage's result (the fields read downstream). -/
structure DesignResult where
  success : Bool
  test_cases : List TestCaseRec
  fallback_used : Bool
deriving DecidableEq, Repr

/-- `EnhancedLoopController._fallback_test_design`: the fixed two-case
list, flagged `fallback_used` (the CSV file it also writes is the
tabular form studied in the CSV section below). -/
def fallbackTestDesign : DesignResult :=
  { success := true
    test_cases :=
      [ { test_case_id := "TC-001"
          test_name := "基本機能確認テスト"
          test_steps := ["サイトにアクセス", "基本機能を実行"]
          expected_results := ["正常動作"] },
        { test_case_id := "TC-002"
          test_name := "UI操作テスト"
          test_steps := ["画面表示確認", "UI要素操作"]
          expected_results := ["適切な応答"] } ]
    fallback_used := true }

/-- `EnhancedLoopController._fallback_test_execution`: one simulated
result per test case of the design result; `coin i` stands for the
draw `random.random() > 0.3` of the `i`-th case. -/
def fallbackTestExecution (coin : Nat → Bool) (design : DesignResult) :
    TestExecutionSummary :=
  let execution_results := design.test_cases.enum.map fun p =>
    let status := if coin p.1 then ExecStatus.passed else ExecStatus.failed
    { test_case_id := p.2.test_case_id
      test_name := p.2.test_name
      status := status
      failure_reason :=
        if status == ExecStatus.failed then some "予期しない結果" else none }
  { execution_results := execution_results
    total_tests := design.test_cases.length
    passed_tests := (execution_results.filter fun r => r.status == .passed).length
    failed_tests_count :=
      (execution_results.filter fun r => r.status == .failed).length
    success := true
    fallback_used := true }

/-- `EnhancedLoopController.run_integrated_test_design` as called in
iteration `i`: a fresh probe, then collaborator or fallback; `collab`
is the oracle for `TestDesignIntegration.create_test_design_from_spec`. -/
def runIntegratedTestDesign (env : AvailabilityEnv) (i : Nat)
    (collab : DesignResult) : DesignResult :=
  if (env.probe i).test_design_app then collab else fallbackTestDesign

/-- `EnhancedLoopController.run_integrated_test_execution` as called
in iteration `i`: fresh probe plus the existence check on the
iteration's `test_cases.csv`. -/
def runIntegratedTestExecution (env : AvailabilityEnv) (i : Nat)
    (csvExists : Bool) (collab : TestExecutionSummary) (coin : Nat → Bool)
    (design : DesignResult) : TestExecutionSummary :=
  if (env.probe i).test_execution_app && csvExists then collab
  else fallbackTestExecution coin design

/-! ## C8: fallback output is non-empty and schema-valid -/

/-- **C8.**  The design fallback yields a non-empty, `fallback_used`
test-case list with non-empty identifier, name, steps and expected
results on every case; the execution fallback yields exactly one
result per test case, each with status `passed` or `failed`, flagged
`fallback_used` — and with every collaborator unreachable at once both
stages indeed take these fallback paths. -/
theorem fallback_results_schema (coin : Nat → Bool)
    (design collabD : DesignResult) (collabE : TestExecutionSummary)
    (i : Nat) (csvExists : Bool) :
    fallbackTestDesign.test_cases ≠ [] ∧
      fallbackTestDesign.fallback_used = true ∧
      (fallbackTestDesign.test_cases.all fun tc =>
        decide (tc.test_case_id ≠ "" ∧ tc.test_name ≠ "" ∧
          tc.test_steps ≠ [] ∧ tc.expected_results ≠ [])) = true ∧
      (fallbackTestExecution coin design).execution_results.length
        = design.test_cases.length ∧
      (fallbackTestExecution coin design).fallback_used = true ∧
      ((fallbackTestExecution coin design).execution_results.all fun r =>
        r.status == ExecStatus.passed || r.status == ExecStatus.failed) = true ∧
      runIntegratedTestDesign ⟨fun _ => ⟨false, false⟩, false⟩ i collabD
        = fallbackTestDesign ∧
      runIntegratedTestExecution ⟨fun _ => ⟨false, false⟩, false⟩ i csvExists
          collabE coin design
        = fallbackTestExecution coin design := by
  refine ⟨by decide, rfl, by decide, ?_, rfl, ?_, rfl, rfl⟩
  · simp [fallbackTestExecution]
  · simp only [fallbackTestExecution, List.all_eq_true]
    intro r hr
    simp only [List.mem_map] at hr
    obtain ⟨p, hp, rfl⟩ := hr
    cases h : coin p.1 <;> simp [h]

/-! ## C7: when is the IntegrationLevel computed? -/

/-- An availability environment in which everything is up at the
pre-loop probe but the design collaborator is down from iteration 1
on. -/
def flakyEnv : AvailabilityEnv :=
  { probe := fun i => if i == 0 then ⟨true, true⟩ else ⟨false, true⟩
    ollama := true }

/-- **C7 counterexample.**  In `flakyEnv` the level in effect during
iteration 2 is the pre-loop `full`, not the `partial` that a fresh
per-iteration recomputation (as the claim asserts) would produce. -/
theorem integration_level_recompute_counterexample :
    integrationLevelInEffect flakyEnv 2
      ≠ verifySystemIntegration (flakyEnv.probe 2) flakyEnv.ollama := by
  decide

/-- **C7 (amended).**  The coarse full/partial/basic IntegrationLevel
is computed once, from the probe taken before the first iteration,
and carried unchanged through every iteration; what is recomputed
from a fresh probe at each iteration is the per-collaborator boolean
availability, which alone selects the collaborator-vs-fallback path
of that iteration's design and execution stages. -/
theorem integration_level_cached (env : AvailabilityEnv) (i j : Nat)
    (collabD : DesignResult) (csvExists : Bool)
    (collabE : TestExecutionSummary) (coin : Nat → Bool)
    (design : DesignResult) :
    integrationLevelInEffect env i = integrationLevelInEffect env j ∧
      integrationLevelInEffect env i
        = verifySystemIntegration (env.probe 0) env.ollama ∧
      runIntegratedTestDesign env i collabD
        = (if (env.probe i).test_design_app then collabD
           else fallbackTestDesign) ∧
      runIntegratedTestExecution env i csvExists collabE coin design
        = (if (env.probe i).test_execution_app && csvExists then collabE
           else fallbackTestExecution coin design) :=
  ⟨rfl, rfl, rfl, rfl⟩

/-! ## CSV export and ingestion
(`test_design_app/app.py` `download_test_cases`,
`test_execution_app/app.py` `upload_test_cases`)

Text is modelled as `List Char` so that the CSV layer can be reasoned
about character by character. -/

/-- A test case as held in the design app's results — the nine columns
of `download_test_cases`. -/
structure DesignTestCase where
  test_case_id : List Char
  requirement_id : List Char
  test_name : List Char
  test_objective : List Char
  preconditions : List (List Char)
  test_steps : List (List Char)
  expected_results : List (List Char)
  test_data : List Char
  test_environment : List Char
deriving DecidableEq, Repr

/-- Python's `",".join(xs)`. -/
def joinComma : List (List Char) → List Char
  | [] => []
  | [x] => x
  | x :: xs => x ++ ',' :: joinComma xs

/-- One double-quoted cell, exactly as the f-string `"{value}"` writes
it (the source performs no escaping of any kind). -/
def csvField (s : List Char) : List Char := '"' :: (s ++ ['"'])

/-- The nine cell values of one data row of `download_test_cases`
(sub-lists comma-joined). -/
def designRowFields (tc : DesignTestCase) : List (List Char) :=
  [tc.test_case_id, tc.requirement_id, tc.test_name, tc.test_objective,
   joinComma tc.preconditions, joinComma tc.test_steps,
   joinComma tc.expected_results, tc.test_data, tc.test_environment]

/-- One data line of the download: quoted cells joined by commas. -/
def designRow (tc : DesignTestCase) : List Char :=
  joinComma ((designRowFields tc).map csvField)

/-- The header line of `download_test_cases`. -/
def designHeader : List Char :=
  ("Test Case ID,Requirement ID,Test Name,Test Objective,Preconditions," ++
    "Test Steps,Expected Results,Test Data,Test Environment").toList

/-- `download_test_cases`: the header line, then one line per case,
each line terminated by `\n`. -/
def downloadTestCases (tcs : List DesignTestCase) : List Char :=
  designHeader ++ '\n' :: (tcs.map fun tc => designRow tc ++ ['\n']).flatten

/-- The characters at which Python's `str.splitlines()` breaks a line:
`\n`, `\v`, `\f`, `\r`, `\x1c`–`\x1e`, `\x85`, `U+2028`, `U+2029`
(and `\r\n` counts as a single break, handled in `splitLinesAux`). -/
def isPyLineBreak (c : Char) : Bool :=
  c == '\n' || c == '\x0b' || c == '\x0c' || c == '\r' ||
    c == '\x1c' || c == '\x1d' || c == '\x1e' || c == '\x85' ||
    c == '\u2028' || c == '\u2029'

/-- The scanning loop of `str.splitlines()`: `acc` holds the current
line reversed; any break character ends the line; `skipLF` records
that the previous character was a line-ending `\r`, so that an
immediately following `\n` is consumed silently (`\r\n` is one
break); a trailing terminator contributes no empty line, while a
final unterminated line is kept. -/
def splitLinesAux (skipLF : Bool) (acc : List Char) :
    List Char → List (List Char)
  | [] => if acc.isEmpty then [] else [acc.reverse]
  | c :: rest =>
    if skipLF && c == '\n' then
      splitLinesAux false acc rest
    else if isPyLineBreak c then
      acc.reverse :: splitLinesAux (c == '\r') [] rest
    else
      splitLinesAux false (c :: acc) rest

/-- Python's `str.splitlines()`. -/
def splitLines (s : List Char) : List (List Char) :=
  splitLinesAux false [] s

/-- States of the `csv` module's field automaton (default dialect,
one record per line). -/
inductive CsvState
  | atStart
  | unquoted
  | quoted
  | postQuote
deriving DecidableEq, Repr

/-- The `csv.reader` field automaton on one line.  `acc` holds the
current cell reversed.  A `"` opens a quoted cell at cell start,
doubles to a literal quote inside one and otherwise closes it; `,`
separates cells outside quotes; any text after a closing quote is
appended to the cell (the reader's non-strict behaviour). -/
def parseLineAux : CsvState → List Char → List Char → List (List Char)
  | _, acc, [] => [acc.reverse]
  | .atStart, acc, c :: rest =>
    if c = '"' then parseLineAux .quoted acc rest
    else if c = ',' then acc.reverse :: parseLineAux .atStart [] rest
    else parseLineAux .unquoted (c :: acc) rest
  | .unquoted, acc, c :: rest =>
    if c = ',' then acc.reverse :: parseLineAux .atStart [] rest
    else parseLineAux .unquoted (c :: acc) rest
  | .quoted, acc, c :: rest =>
    if c = '"' then parseLineAux .postQuote acc rest
    else parseLineAux .quoted (c :: acc) rest
  | .postQuote, acc, c :: rest =>
    if c = '"' then parseLineAux .quoted ('"' :: acc) rest
    else if c = ',' then acc.reverse :: parseLineAux .atStart [] rest
    else parseLineAux .unquoted (c :: acc) rest

/-- Parse one CSV line into its cells. -/
def parseCsvLine (line : List Char) : List (List Char) :=
  parseLineAux .atStart [] line

/-- `csv.DictReader`'s `row.get(key, "")`: position the key in the
header line, return the matching cell (otherwise `""`). -/
def rowGet (headers fields : List (List Char)) (key : List Char) : List Char :=
  match (headers.zip fields).find? (fun p => p.1 == key) with
  | some p => p.2
  | none => []

/-- The whitespace set of Python's `str.strip()` — the characters on
which `str.isspace()` is true: `\t`, `\n`, `\v`, `\f`, `\r`,
`\x1c`–`\x1f`, space, `\x85`, `\xa0`, `U+1680`, `U+2000`–`U+200a`,
`U+2028`, `U+2029`, `U+202f`, `U+205f`, `U+3000`. -/
def isPySpace (c : Char) : Bool :=
  c == '\t' || c == '\n' || c == '\x0b' || c == '\x0c' || c == '\r' ||
    c == '\x1c' || c == '\x1d' || c == '\x1e' || c == '\x1f' ||
    c == ' ' || c == '\x85' || c == '\xa0' || c == '\u1680' ||
    (decide ('\u2000' ≤ c) && decide (c ≤ '\u200a')) ||
    c == '\u2028' || c == '\u2029' || c == '\u202f' || c == '\u205f' ||
    c == '\u3000'

/-- Python's `str.strip()`. -/
def pyStrip (s : List Char) : List Char :=
  ((s.dropWhile isPySpace).reverse.dropWhile isPySpace).reverse

/-- `[x.strip() for x in cell.split(",") if x.strip()]` — the
ingestion of the comma-joined sub-lists. -/
def splitCommaCleaned (cell : List Char) : List (List Char) :=
  ((cell.splitOn ',').map pyStrip).filter fun x => !x.isEmpty

/-- A test case as rebuilt by `upload_test_cases`. -/
structure UploadedTestCase where
  test_case_id : List Char
  test_name : List Char
  test_objective : List Char
  test_steps : List (List Char)
  expected_results : List (List Char)
  test_data : List Char
  test_environment : List Char
deriving DecidableEq, Repr

/-- The record `upload_test_cases` builds from one `DictReader` row:
scalar columns verbatim, the step and expected-result columns
comma-split, stripped and filtered. -/
def buildUploadedTestCase (headers : List (List Char)) (line : List Char) :
    UploadedTestCase :=
  let fields := parseCsvLine line
  { test_case_id := rowGet headers fields "Test Case ID".toList
    test_name := rowGet headers fields "Test Name".toList
    test_objective := rowGet headers fields "Test Objective".toList
    test_steps := splitCommaCleaned (rowGet headers fields "Test Steps".toList)
    expected_results :=
      splitCommaCleaned (rowGet headers fields "Expected Results".toList)
    test_data := rowGet headers fields "Test Data".toList
    test_environment := rowGet headers fields "Test Environment".toList }

/-- `upload_test_cases`: split the file into lines, take the first as
the `DictReader` header, parse each remaining line and build the
test-case records. -/
def uploadTestCases (content : List Char) : List UploadedTestCase :=
  match splitLines content with
  | [] => []
  | headerLine :: rest => rest.map (buildUploadedTestCase (parseCsvLine headerLine))

/-- A design test case whose single step description contains a
comma. -/
def commaStepCase : DesignTestCase :=
  { test_case_id := "TC-001".toList
    requirement_id := "REQ-001".toList
    test_name := "Name".toList
    test_objective := "Obj".toList
    preconditions := []
    test_steps := ["open page, then submit".toList]
    expected_results := ["ok".toList]
    test_data := "data".toList
    test_environment := "env".toList }

/-- **C6 counterexample.**  A step containing a comma is comma-joined
on export and comma-split on ingestion, coming back as two separate
steps: the round trip does not recover the step list, even after
whitespace trimming. -/
theorem csv_round_trip_counterexample :
    (uploadTestCases (downloadTestCases [commaStepCase])).map
        (fun tc => tc.test_steps)
      ≠ [commaStepCase.test_steps.map pyStrip] := by
  decide

/-! ### Lemmas: comma joining and splitting -/

theorem joinComma_cons_cons (a b : List Char) (t : List (List Char)) :
    joinComma (a :: b :: t) = a ++ ',' :: joinComma (b :: t) := rfl

theorem intercalate_cons_ne (s a : List Char) (ys : List (List Char))
    (h : ys ≠ []) :
    List.intercalate s (a :: ys) = a ++ s ++ List.intercalate s ys := by
  cases ys with
  | nil => exact absurd rfl h
  | cons y t => simp [List.intercalate, List.intersperse]

theorem joinComma_eq_intercalate (xs : List (List Char)) :
    joinComma xs = List.intercalate [','] xs := by
  induction xs with
  | nil => rfl
  | cons a t ih =>
    cases t with
    | nil => simp [joinComma, List.intercalate, List.intersperse]
    | cons b t' =>
      rw [joinComma_cons_cons, ih, intercalate_cons_ne [','] a (b :: t') (by simp)]
      simp

theorem not_mem_joinComma (c : Char) (hc : c ≠ ',') (xs : List (List Char))
    (h : ∀ x ∈ xs, c ∉ x) : c ∉ joinComma xs := by
  induction xs with
  | nil => simp [joinComma]
  | cons x t ih =>
    cases t with
    | nil => simpa [joinComma] using h x (by simp)
    | cons y t' =>
      rw [joinComma_cons_cons]
      intro hmem
      rcases List.mem_append.mp hmem with hx | hy
      · exact h x (by simp) hx
      · rcases List.mem_cons.mp hy with he | hj
        · exact hc he
        · exact ih (fun z hz => h z (List.mem_cons_of_mem x hz)) hj

theorem mem_joinComma (c : Char) (xs : List (List Char))
    (h : c ∈ joinComma xs) : c = ',' ∨ ∃ x ∈ xs, c ∈ x := by
  induction xs with
  | nil => simp [joinComma] at h
  | cons x t ih =>
    cases t with
    | nil => exact Or.inr ⟨x, by simp, by simpa [joinComma] using h⟩
    | cons y t' =>
      rw [joinComma_cons_cons] at h
      rcases List.mem_append.mp h with hx | hy
      · exact Or.inr ⟨x, by simp, hx⟩
      · rcases List.mem_cons.mp hy with he | hj
        · exact Or.inl he
        · rcases ih hj with he | ⟨z, hz, hcz⟩
          · exact Or.inl he
          · exact Or.inr ⟨z, List.mem_cons_of_mem x hz, hcz⟩

theorem splitCommaCleaned_joinComma (xs : List (List Char))
    (h : ∀ x ∈ xs, (',' ∉ x) ∧ pyStrip x ≠ []) :
    splitCommaCleaned (joinComma xs) = xs.map pyStrip := by
  cases xs with
  | nil => rfl
  | cons a t =>
    rw [joinComma_eq_intercalate, splitCommaCleaned,
      List.splitOn_intercalate (a :: t) ','
        (fun l hl => (h l hl).1) (by simp)]
    refine List.filter_eq_self.mpr ?_
    intro x hx
    simp only [List.mem_map] at hx
    obtain ⟨y, hy, rfl⟩ := hx
    simpa using (h y hy).2

/-! ### Lemmas: line splitting -/

theorem splitLinesAux_run (l : List Char)
    (hl : ∀ c ∈ l, isPyLineBreak c = false) :
    ∀ acc rest, splitLinesAux false acc (l ++ rest)
      = splitLinesAux false (l.reverse ++ acc) rest := by
  induction l with
  | nil => intro acc rest; simp
  | cons c t ih =>
    intro acc rest
    have hc : isPyLineBreak c = false := hl c (by simp)
    rw [List.cons_append]
    have hstep : splitLinesAux false acc (c :: (t ++ rest))
        = splitLinesAux false (c :: acc) (t ++ rest) := by
      simp [splitLinesAux, hc]
    rw [hstep, ih (fun x hx => hl x (by simp [hx])) (c :: acc) rest]
    simp

theorem splitLinesAux_newline (acc rest : List Char) :
    splitLinesAux false acc ('\n' :: rest)
      = acc.reverse :: splitLinesAux false [] rest := rfl

theorem splitLines_unlines (ls : List (List Char))
    (h : ∀ l ∈ ls, ∀ c ∈ l, isPyLineBreak c = false) :
    splitLines ((ls.map fun l => l ++ ['\n']).flatten) = ls := by
  induction ls with
  | nil => rfl
  | cons a t ih =>
    have hstep : splitLines ((((a :: t)).map fun l => l ++ ['\n']).flatten)
        = a :: splitLines ((t.map fun l => l ++ ['\n']).flatten) := by
      rw [List.map_cons, List.flatten_cons, List.append_assoc, splitLines,
        splitLinesAux_run a (h a (by simp)) [] _, List.cons_append,
        List.nil_append, splitLinesAux_newline]
      simp [splitLines]
    rw [hstep, ih fun l hl c hc => h l (by simp [hl]) c hc]

theorem splitLines_download (tcs : List DesignTestCase)
    (h : ∀ tc ∈ tcs, ∀ c ∈ designRow tc, isPyLineBreak c = false) :
    splitLines (downloadTestCases tcs) = designHeader :: tcs.map designRow := by
  have hshape : downloadTestCases tcs
      = (((designHeader :: tcs.map designRow).map fun l => l ++ ['\n']).flatten) := by
    simp only [List.map_cons, List.flatten_cons, List.map_map]
    rfl
  rw [hshape]
  refine splitLines_unlines _ ?_
  intro l hl
  rcases List.mem_cons.mp hl with he | hm
  · subst he
    intro c hc
    revert hc
    revert c
    decide
  · simp only [List.mem_map] at hm
    obtain ⟨tc, htc, rfl⟩ := hm
    exact h tc htc

/-! ### Lemmas: the CSV field automaton -/

theorem parseLineAux_nil (st : CsvState) (acc : List Char) :
    parseLineAux st acc [] = [acc.reverse] := by
  cases st <;> rfl

theorem parseLineAux_atStart_quote (acc rest : List Char) :
    parseLineAux .atStart acc ('"' :: rest) = parseLineAux .quoted acc rest := by
  simp [parseLineAux]

theorem parseLineAux_quoted_quote (acc rest : List Char) :
    parseLineAux .quoted acc ('"' :: rest) = parseLineAux .postQuote acc rest := by
  simp [parseLineAux]

theorem parseLineAux_quoted_other (c : Char) (hc : c ≠ '"')
    (acc rest : List Char) :
    parseLineAux .quoted acc (c :: rest)
      = parseLineAux .quoted (c :: acc) rest := by
  simp [parseLineAux, hc]

theorem parseLineAux_postQuote_comma (acc rest : List Char) :
    parseLineAux .postQuote acc (',' :: rest)
      = acc.reverse :: parseLineAux .atStart [] rest := by
  simp [parseLineAux]

theorem parseLineAux_quoted_run (s : List Char) (hq : '"' ∉ s) :
    ∀ acc rest, parseLineAux .quoted acc (s ++ rest)
      = parseLineAux .quoted (s.reverse ++ acc) rest := by
  induction s with
  | nil => intro acc rest; simp
  | cons c t ih =>
    intro acc rest
    have hc : c ≠ '"' := fun he => hq (by simp [he])
    rw [List.cons_append, parseLineAux_quoted_other c hc,
      ih (fun hm => hq (by simp [hm])) (c :: acc) rest]
    simp

theorem parseCsvLine_quoted_fields (fs : List (List Char)) :
    (∀ f ∈ fs, '"' ∉ f) → fs ≠ [] →
    parseCsvLine (joinComma (fs.map csvField)) = fs := by
  induction fs with
  | nil => intro _ h; exact absurd rfl h
  | cons f t ih =>
    intro hf _
    have hqf : '"' ∉ f := hf f (by simp)
    cases t with
    | nil =>
      have hj : joinComma [csvField f] = '"' :: (f ++ ['"']) := rfl
      rw [List.map_cons, List.map_nil, hj, parseCsvLine,
        parseLineAux_atStart_quote, parseLineAux_quoted_run f hqf,
        parseLineAux_quoted_quote, parseLineAux_nil]
      simp
    | cons g t' =>
      have hassoc :
          joinComma ((f :: g :: t').map csvField)
            = '"' :: (f ++ ('"' :: ',' ::
                joinComma ((g :: t').map csvField))) := by
        simp only [List.map_cons, joinComma_cons_cons, csvField]
        simp
      rw [parseCsvLine, hassoc, parseLineAux_atStart_quote,
        parseLineAux_quoted_run f hqf,
        parseLineAux_quoted_quote, parseLineAux_postQuote_comma]
      have htail := ih (fun x hx => hf x (List.mem_cons_of_mem f hx)) (by simp)
      rw [parseCsvLine] at htail
      rw [htail]
      simp

/-- The header line parses into the nine column names. -/
theorem parseCsvLine_designHeader :
    parseCsvLine designHeader =
      ["Test Case ID".toList, "Requirement ID".toList, "Test Name".toList,
       "Test Objective".toList, "Preconditions".toList, "Test Steps".toList,
       "Expected Results".toList, "Test Data".toList,
       "Test Environment".toList] := by
  decide

/-- `rowGet` against the parsed header on a full nine-cell row picks
the cell under each column name the upload reads. -/
theorem rowGet_designHeader (f1 f2 f3 f4 f5 f6 f7 f8 f9 : List Char) :
    rowGet (parseCsvLine designHeader) [f1, f2, f3, f4, f5, f6, f7, f8, f9]
        "Test Case ID".toList = f1 ∧
      rowGet (parseCsvLine designHeader) [f1, f2, f3, f4, f5, f6, f7, f8, f9]
        "Test Name".toList = f3 ∧
      rowGet (parseCsvLine designHeader) [f1, f2, f3, f4, f5, f6, f7, f8, f9]
        "Test Objective".toList = f4 ∧
      rowGet (parseCsvLine designHeader) [f1, f2, f3, f4, f5, f6, f7, f8, f9]
        "Test Steps".toList = f6 ∧
      rowGet (parseCsvLine designHeader) [f1, f2, f3, f4, f5, f6, f7, f8, f9]
        "Expected Results".toList = f7 ∧
      rowGet (parseCsvLine designHeader) [f1, f2, f3, f4, f5, f6, f7, f8, f9]
        "Test Data".toList = f8 ∧
      rowGet (parseCsvLine designHeader) [f1, f2, f3, f4, f5, f6, f7, f8, f9]
        "Test Environment".toList = f9 := by
  rw [parseCsvLine_designHeader]
  refine ⟨rfl, rfl, rfl, rfl, rfl, rfl, rfl⟩

/-! ### The round-trip domain -/

/-- A character that breaks neither the naive quoting of the download
(no `"`), nor the line structure (none of the `str.splitlines()`
break characters). -/
def csvSafeChar (c : Char) : Bool := !(c == '"' || isPyLineBreak c)

/-- All characters of the cell are CSV-safe. -/
def csvSafe (s : List Char) : Bool := s.all csvSafeChar

/-- The domain on which the export/ingest round trip is exact: every
cell quote- and newline-free, and each step / expected-result
description additionally comma-free and nonempty after stripping. -/
def goodTestCase (tc : DesignTestCase) : Bool :=
  csvSafe tc.test_case_id && csvSafe tc.requirement_id &&
    csvSafe tc.test_name && csvSafe tc.test_objective &&
    csvSafe tc.test_data && csvSafe tc.test_environment &&
    tc.preconditions.all csvSafe &&
    (tc.test_steps.all fun s =>
      csvSafe s && decide (',' ∉ s) && decide (pyStrip s ≠ [])) &&
    (tc.expected_results.all fun s =>
      csvSafe s && decide (',' ∉ s) && decide (pyStrip s ≠ []))

theorem csvSafe_spec (s : List Char) (h : csvSafe s = true) :
    '"' ∉ s ∧ ∀ c ∈ s, isPyLineBreak c = false := by
  simp only [csvSafe, List.all_eq_true, csvSafeChar] at h
  constructor
  · intro hm
    simpa using h _ hm
  · intro c hc
    have hb := h c hc
    simp only [Bool.not_eq_eq_eq_not, Bool.not_true, Bool.or_eq_false_iff] at hb
    exact hb.2

theorem goodTestCase_spec (tc : DesignTestCase) (h : goodTestCase tc = true) :
    (∀ f ∈ designRowFields tc,
      '"' ∉ f ∧ ∀ c ∈ f, isPyLineBreak c = false) ∧
      (∀ s ∈ tc.test_steps, (',' ∉ s) ∧ pyStrip s ≠ []) ∧
      (∀ s ∈ tc.expected_results, (',' ∉ s) ∧ pyStrip s ≠ []) := by
  simp only [goodTestCase, Bool.and_eq_true, List.all_eq_true,
    decide_eq_true_eq] at h
  obtain ⟨⟨⟨⟨⟨⟨⟨⟨hid, hreq⟩, hname⟩, hobj⟩, hdata⟩, henv⟩, hpre⟩, hsteps⟩,
    hexp⟩ := h
  have hjoin : ∀ (xs : List (List Char)), (∀ x ∈ xs, csvSafe x = true) →
      '"' ∉ joinComma xs ∧ ∀ c ∈ joinComma xs, isPyLineBreak c = false := by
    intro xs hxs
    refine ⟨not_mem_joinComma '"' (by decide) xs
        fun x hx => (csvSafe_spec x (hxs x hx)).1, ?_⟩
    intro c hc
    rcases mem_joinComma c xs hc with he | ⟨x, hx, hcx⟩
    · subst he
      decide
    · exact (csvSafe_spec x (hxs x hx)).2 c hcx
  refine ⟨?_, ?_, ?_⟩
  · intro f hf
    simp only [designRowFields, List.mem_cons, List.not_mem_nil, or_false] at hf
    rcases hf with rfl | rfl | rfl | rfl | rfl | rfl | rfl | rfl | rfl
    · exact csvSafe_spec _ hid
    · exact csvSafe_spec _ hreq
    · exact csvSafe_spec _ hname
    · exact csvSafe_spec _ hobj
    · exact hjoin _ hpre
    · exact hjoin _ fun x hx => ((hsteps x hx).1).1
    · exact hjoin _ fun x hx => ((hexp x hx).1).1
    · exact csvSafe_spec _ hdata
    · exact csvSafe_spec _ henv
  · exact fun s hs => ⟨((hsteps s hs).1).2, (hsteps s hs).2⟩
  · exact fun s hs => ⟨((hexp s hs).1).2, (hexp s hs).2⟩

theorem uploadTestCases_rows (content : List Char) (rows : List (List Char))
    (hs : splitLines content = designHeader :: rows) :
    uploadTestCases content
      = rows.map (buildUploadedTestCase (parseCsvLine designHeader)) := by
  rw [uploadTestCases, hs]

theorem buildUploadedTestCase_designRow (tc : DesignTestCase)
    (h : goodTestCase tc = true) :
    buildUploadedTestCase (parseCsvLine designHeader) (designRow tc)
      = { test_case_id := tc.test_case_id
          test_name := tc.test_name
          test_objective := tc.test_objective
          test_steps := tc.test_steps.map pyStrip
          expected_results := tc.expected_results.map pyStrip
          test_data := tc.test_data
          test_environment := tc.test_environment } := by
  obtain ⟨hfields, hsteps, hexp⟩ := goodTestCase_spec tc h
  have hparse : parseCsvLine (designRow tc) = designRowFields tc :=
    parseCsvLine_quoted_fields (designRowFields tc)
      (fun f hf => (hfields f hf).1) (by simp [designRowFields])
  obtain ⟨g1, g3, g4, g6, g7, g8, g9⟩ := rowGet_designHeader
    tc.test_case_id tc.requirement_id tc.test_name tc.test_objective
    (joinComma tc.preconditions) (joinComma tc.test_steps)
    (joinComma tc.expected_results) tc.test_data tc.test_environment
  simp only [buildUploadedTestCase, hparse, designRowFields, g1, g3, g4, g6,
    g7, g8, g9, splitCommaCleaned_joinComma tc.test_steps hsteps,
    splitCommaCleaned_joinComma tc.expected_results hexp]

/-! ### C6: the round trip -/

/-- **C6 (amended).**  On test cases whose cells contain no quote or
newline character and whose step / expected-result descriptions are in
addition comma-free and nonempty after trimming, re-ingesting the
exported CSV recovers every case exactly: identifiers, names,
objectives, data and environment verbatim, and the step and
expected-result lists up to whitespace trimming of each entry. -/
theorem csv_round_trip (tcs : List DesignTestCase)
    (h : tcs.all goodTestCase = true) :
    uploadTestCases (downloadTestCases tcs)
      = tcs.map fun tc =>
        { test_case_id := tc.test_case_id
          test_name := tc.test_name
          test_objective := tc.test_objective
          test_steps := tc.test_steps.map pyStrip
          expected_results := tc.expected_results.map pyStrip
          test_data := tc.test_data
          test_environment := tc.test_environment } := by
  simp only [List.all_eq_true] at h
  have hrow : ∀ tc ∈ tcs, ∀ ch ∈ designRow tc, isPyLineBreak ch = false := by
    intro tc htc ch hch
    have hfields := (goodTestCase_spec tc (h tc htc)).1
    rcases mem_joinComma ch _ hch with he | ⟨x, hx, hcx⟩
    · subst he
      decide
    · simp only [List.mem_map] at hx
      obtain ⟨f, hf, rfl⟩ := hx
      simp only [csvField] at hcx
      rcases List.mem_cons.mp hcx with he | hm2
      · subst he
        decide
      · rcases List.mem_append.mp hm2 with hm3 | hm4
        · exact (hfields f hf).2 ch hm3
        · simp only [List.mem_singleton] at hm4
          subst hm4
          decide
  rw [uploadTestCases_rows (downloadTestCases tcs) (tcs.map designRow)
    (splitLines_download tcs hrow), List.map_map]
  refine List.map_congr_left ?_
  intro tc htc
  exact buildUploadedTestCase_designRow tc (h tc htc)

/-- A well-behaved concrete test case for the round-trip witness. -/
def plainCase : DesignTestCase :=
  { test_case_id := "TC-001".toList
    requirement_id := "REQ-001".toList
    test_name := "基本機能確認テスト".toList
    test_objective := "基本テスト".toList
    preconditions := []
    test_steps := ["サイトにアクセス".toList, "基本機能を実行".toList]
    expected_results := ["正常動作".toList]
    test_data := "標準".toList
    test_environment := "テスト環境".toList }

/-- Witness for the amended C6 on a concrete well-behaved case. -/
theorem csv_round_trip_witness :
    [plainCase].all goodTestCase = true ∧
      uploadTestCases (downloadTestCases [plainCase])
        = [plainCase].map fun tc =>
          { test_case_id := tc.test_case_id
            test_name := tc.test_name
            test_objective := tc.test_objective
            test_steps := tc.test_steps.map pyStrip
            expected_results := tc.expected_results.map pyStrip
            test_data := tc.test_data
            test_environment := tc.test_environment } :=
  ⟨by decide, csv_round_trip [plainCase] (by decide)⟩
